import Mathlib

/-!
# FoundIt backend (`server.js`)

A shallow embedding of the Express route handlers of `server.js` and the
properties of the claim lifecycle, signup, login and post creation.

Conventions of the embedding:

* The four Mongoose collections (`User`, `Admin`, `Post`, `Claim`) are lists of
  documents in insertion order.  `findOne` / `findById` return the first
  matching document, `save()` on a loaded document and `findByIdAndUpdate`
  rewrite the first document with that `_id`, `new Model(..).save()` appends.
* An `ObjectId` is a natural number.  A path parameter `:id` is an
  `Option ObjectId`: `none` stands for a path segment Mongoose cannot cast to
  an ObjectId (the query rejects with a `CastError`, which the handler's
  `catch` turns into its 500 response).
* A JSON body field is an `Option String`: `none` is a field that is absent
  (`undefined`).  A query filter value that is `undefined` reaches MongoDB as
  `null` and matches the documents that lack the field, so optional references
  (`claimantId`, `userId`) are compared as `Option`s; every stored account has
  an email, so an `undefined` email matches no account.
* `bcryptjs` and `jsonwebtoken` are external libraries; they are parameters
  (`Lib`).  What a request reads from its surroundings (`Date.now()`, the salt
  drawn by `bcrypt.hash`, the `_id` Mongoose gives a new document) is `Env`.
* A handler returns the store after the request and the HTTP response.
-/

namespace FoundIt

/-! ## JavaScript strings -/

/-- JavaScript `s.length`: the number of UTF-16 code units of `s`. -/
def jsLength (s : String) : Nat :=
  (s.data.map (fun c => if c.toNat < 65536 then 1 else 2)).sum

/-- JavaScript `s.endsWith(suffix)`. -/
def jsEndsWith (s suffix : String) : Bool :=
  suffix.data.isSuffixOf s.data

/-- The pieces of a character list between occurrences of `sep`. -/
def splitChars (sep : Char) : List Char → List (List Char)
  | [] => [[]]
  | c :: cs =>
    if c = sep then [] :: splitChars sep cs
    else
      match splitChars sep cs with
      | [] => [[c]]
      | w :: ws => (c :: w) :: ws

/-- JavaScript `s.split(sep)` for a one-character separator. -/
def jsSplit (s : String) (sep : Char) : List String :=
  (splitChars sep s.data).map String.mk

/-- The expression `email.split('@')[0]`. -/
def localPart (email : String) : String :=
  (jsSplit email '@').headD ""

/-- Decimal digits of `n`, most significant first (`fuel` bounds the number of digits). -/
def decimal : Nat → Nat → List Char
  | 0, _ => []
  | fuel + 1, n =>
    if n < 10 then [Nat.digitChar n]
    else decimal fuel (n / 10) ++ [Nat.digitChar (n % 10)]

/-- JavaScript number-to-string conversion of a non-negative integer, as in the
template literal of the username loop. -/
def jsNumberToString (n : Nat) : String :=
  ⟨decimal (n + 1) n⟩

/-- JavaScript truthiness of an optional string: `undefined` and `''` are falsy. -/
def truthy : Option String → Bool
  | none => false
  | some s => !s.data.isEmpty

/-- The regular expression test `/jpeg|jpg|png/.test(s)`. -/
def allowedTest (s : String) : Bool :=
  decide ("jpeg".data <:+: s.data) || decide ("jpg".data <:+: s.data)
    || decide ("png".data <:+: s.data)

/-! ## Data model (the Mongoose schemas) -/

abbrev ObjectId := Nat

/-- Entry of `userSchema.notifications`. -/
structure Notification where
  message : String
  date : Nat
deriving DecidableEq, Repr

/-- Document of `userSchema`. -/
structure User where
  _id : ObjectId
  email : String
  username : String
  password : String
  notifications : List Notification
  createdAt : Nat
deriving DecidableEq, Repr

/-- Document of `adminSchema`. -/
structure Admin where
  _id : ObjectId
  email : String
  username : String
  password : String
  createdAt : Nat
deriving DecidableEq, Repr

/-- The enum of `postSchema.status`. -/
inductive PostStatus where
  | lost
  | found
  | claimed
deriving DecidableEq, Repr

/-- Document of `postSchema`. -/
structure Post where
  _id : ObjectId
  name : String
  item : String
  desc : String
  imageUrl : Option String
  status : PostStatus
  contact : String
  location : Option String
  date : Nat
  userId : Option ObjectId
deriving DecidableEq, Repr

/-- The enum of `claimSchema.status`. -/
inductive ClaimStatus where
  | pending
  | approved
  | denied
deriving DecidableEq, Repr

/-- Document of `claimSchema`. -/
structure Claim where
  _id : ObjectId
  postId : ObjectId
  claimantId : Option ObjectId
  status : ClaimStatus
  claimedAt : Nat
deriving DecidableEq, Repr

/-- The database: the four collections. -/
structure Store where
  users : List User
  admins : List Admin
  posts : List Post
  claims : List Claim
deriving DecidableEq, Repr

/-- The database before any request. -/
def Store.empty : Store := ⟨[], [], [], []⟩

/-! ## Collection operations -/

/-- Rewrite the first element satisfying `p` (Mongo `updateOne`). -/
def updateFirst {α : Type} (p : α → Bool) (f : α → α) : List α → List α
  | [] => []
  | x :: xs => if p x then f x :: xs else x :: updateFirst p f xs

/-- The call `User.findById(id)`; an `undefined` id finds nothing. -/
def findUser (s : Store) (id : Option ObjectId) : Option User :=
  id.bind (fun i => s.users.find? (fun u => u._id == i))

/-- The call `Post.findById(id)`, also what `populate` of a post reference does. -/
def findPost (s : Store) (id : ObjectId) : Option Post :=
  s.posts.find? (fun p => p._id == id)

/-- The call `Claim.findById(id)`. -/
def findClaim (s : Store) (id : ObjectId) : Option Claim :=
  s.claims.find? (fun c => c._id == id)

/-! ## Requests, responses, libraries -/

/-- The decoded payload of a bearer token (`req.user`). -/
structure TokenPayload where
  userId : Option ObjectId
  adminId : Option ObjectId
  email : Option String
  username : Option String
  role : Option String
deriving DecidableEq, Repr

/-- The external libraries `bcryptjs` and `jsonwebtoken` (with the process secret). -/
structure Lib where
  /-- The call `bcrypt.hash(password, 10)` with the salt it draws. -/
  bcryptHash : String → Nat → String
  /-- The call `bcrypt.compare(password, hash)` on two strings. -/
  bcryptCompare : String → String → Bool
  /-- The call `jwt.sign(payload, secret, { expiresIn: '24h' })` at a time. -/
  jwtSign : TokenPayload → Nat → String
  /-- The call `jwt.verify(token, secret)` at a time: the payload, or failure. -/
  jwtVerify : String → Nat → Option TokenPayload

/-- What a request reads from its surroundings. -/
structure Env where
  now : Nat
  salt : Nat
  newId : ObjectId
deriving DecidableEq, Repr

/-- The `user` object of the signup and login responses. -/
structure UserInfo where
  id : ObjectId
  email : String
  username : String
  role : String
deriving DecidableEq, Repr

/-- The fields a `populate` of a user reference selects. -/
structure UserRef where
  _id : ObjectId
  email : Option String
  username : String
deriving DecidableEq, Repr

/-- A claim with `postId` (and its `userId`) and `claimantId` populated. -/
structure ClaimView where
  claim : Claim
  post : Option (Post × Option UserRef)
  claimant : Option UserRef
deriving DecidableEq, Repr

/-- Response bodies. -/
inductive Body where
  | text (s : String)
  | message (m : String)
  | auth (message token : String) (user : UserInfo)
  | post (p : Post) (poster : Option UserRef)
  | posts (ps : List (Post × Option UserRef))
  | ownPosts (ps : List Post)
  | claims (cs : List ClaimView)
  | stats (totalPosts pendingClaims resolvedClaims : Nat)
  | profile (username : String) (createdAt : Nat) (notifications : List Notification)
deriving DecidableEq, Repr

/-- An HTTP response: status code and body. -/
structure Response where
  status : Nat
  body : Body
deriving DecidableEq, Repr

/-- The multipart fields of `POST /api/posts`. -/
structure PostBody where
  name : Option String
  item : Option String
  desc : Option String
  status : Option String
  contact : Option String
  location : Option String
deriving DecidableEq, Repr

/-- An uploaded file as multer sees it: `path.extname(originalname)` and the MIME type. -/
structure Upload where
  ext : String
  mimetype : String
deriving DecidableEq, Repr

/-- The routes of the server with what each reads from the request. -/
inductive Request where
  | root
  | signup (email password : Option String)
  | login (email password : Option String)
  | listPosts
  | createPost (authorization : Option String) (body : PostBody) (file : Option Upload)
  | getPost (id : Option ObjectId)
  | listClaims (authorization : Option String)
  | createClaim (authorization : Option String) (id : Option ObjectId)
  | approveClaim (authorization : Option String) (id : Option ObjectId)
  | denyClaim (authorization : Option String) (id : Option ObjectId)
  | claimStats (authorization : Option String)
  | clearNotifications (authorization : Option String)
  | profile (authorization : Option String)
  | profilePosts (authorization : Option String)
deriving DecidableEq, Repr

/-! ## Middleware -/

/-- The middleware `authenticateToken`: the decoded payload, or the response it sends. -/
def authenticateToken (L : Lib) (now : Nat) (authorization : Option String) :
    Except Response TokenPayload :=
  match authorization.bind (fun h => (jsSplit h ' ')[1]?) with
  | none => .error ⟨401, .message "Access token required"⟩
  | some token =>
    if token.data.isEmpty then .error ⟨401, .message "Access token required"⟩
    else
      match L.jwtVerify token now with
      | none => .error ⟨403, .message "Invalid token"⟩
      | some user => .ok user

/-- The `fileFilter` of the multer upload: extension and MIME type both match. -/
def fileFilter (file : Upload) : Bool :=
  allowedTest (file.ext.map Char.toLower) && allowedTest file.mimetype

/-- The `filename` of the multer disk storage: `Date.now() + path.extname(..)`. -/
def uploadFilename (now : Nat) (file : Upload) : String :=
  jsNumberToString now ++ file.ext

/-! ## Signup and login -/

/-- The loop `while (await User.findOne({ username })) username = base + counter++`.
The first argument bounds the number of iterations; `none` is a loop still
running when the bound is reached.  The counter is a JavaScript number, exact
below `2^53`, which no collection reaches; it is a natural number here. -/
def usernameLoop (users : List User) (baseUsername : String) :
    Nat → String → Nat → Option String
  | 0, _, _ => none
  | fuel + 1, username, counter =>
    if (users.find? (fun u => u.username == username)).isSome then
      usernameLoop users baseUsername fuel
        (baseUsername ++ jsNumberToString counter) (counter + 1)
    else some username

/-- The handler of `POST /api/signup`.  The username loop runs with one more
iteration than there are user documents, which `usernameLoop_terminates` shows
is always enough; `none` would be a request that never answers. -/
def signup (L : Lib) (env : Env) (s : Store) (email password : Option String) :
    Option (Store × Response) :=
  match email with
  -- `email.endsWith` on `undefined` throws a TypeError; the `catch` answers
  | none => some (s, ⟨500, .message "Server error during signup"⟩)
  | some email =>
    let isAdmin := jsEndsWith email "@admin.riphah.edu.pk"
    match password with
    -- `bcrypt.hash(undefined, 10)` rejects; the `catch` answers
    | none => some (s, ⟨500, .message "Server error during signup"⟩)
    | some password =>
      let hashedPassword := L.bcryptHash password env.salt
      let baseUsername := localPart email
      if isAdmin then
        match s.admins.find? (fun a => a.email == email) with
        | some _ => some (s, ⟨400, .message "Admin already exists"⟩)
        | none =>
          let admin : Admin :=
            { _id := env.newId, email := email, username := baseUsername,
              password := hashedPassword, createdAt := env.now }
          let token := L.jwtSign
            { userId := none, adminId := some admin._id, email := none,
              username := none, role := some "admin" } env.now
          some ({ s with admins := s.admins ++ [admin] },
            ⟨201, .auth "Admin created" token
              ⟨admin._id, admin.email, admin.username, "admin"⟩⟩)
      else if email.data.isEmpty || password.data.isEmpty
          || (!jsEndsWith email "@students.riphah.edu.pk"
              && !jsEndsWith email "@faculty.riphah.edu.pk")
          || decide (jsLength password < 6) then
        some (s, ⟨400, .message "Invalid email or password"⟩)
      else
        match s.users.find? (fun u => u.email == email) with
        | some _ => some (s, ⟨400, .message "User already exists"⟩)
        | none =>
          match usernameLoop s.users baseUsername (s.users.length + 1) baseUsername 1 with
          | none => none
          | some username =>
            let newUser : User :=
              { _id := env.newId, email := email, username := username,
                password := hashedPassword, notifications := [], createdAt := env.now }
            let token := L.jwtSign
              { userId := some newUser._id, adminId := none, email := some newUser.email,
                username := none, role := none } env.now
            some ({ s with users := s.users ++ [newUser] },
              ⟨201, .auth "User created" token
                ⟨newUser._id, newUser.email, newUser.username, "user"⟩⟩)

/-- The condition `doc && await bcrypt.compare(password, doc.password)`:
`none` when `bcrypt.compare` rejects (the password is not a string). -/
def passwordMatches (L : Lib) (password : Option String) (stored : Option String) :
    Option Bool :=
  match stored with
  | none => some false
  | some hash =>
    match password with
    | none => none
    | some p => some (L.bcryptCompare p hash)

/-- The handler of `POST /api/login`. -/
def login (L : Lib) (env : Env) (s : Store) (email password : Option String) :
    Store × Response :=
  let user := email.bind (fun e => s.users.find? (fun u => u.email == e))
  let admin := email.bind (fun e => s.admins.find? (fun a => a.email == e))
  match passwordMatches L password (user.map (fun u => u.password)), user with
  -- `bcrypt.compare` rejected; the `catch` answers
  | none, _ => (s, ⟨500, .message "Server error during login"⟩)
  | some true, some u =>
    let token := L.jwtSign
      { userId := some u._id, adminId := none, email := some u.email,
        username := some u.username, role := some "user" } env.now
    (s, ⟨200, .auth "Login successful" token ⟨u._id, u.email, u.username, "user"⟩⟩)
  | _, _ =>
    match passwordMatches L password (admin.map (fun a => a.password)), admin with
    | none, _ => (s, ⟨500, .message "Server error during login"⟩)
    | some true, some a =>
      let token := L.jwtSign
        { userId := none, adminId := some a._id, email := some a.email,
          username := some a.username, role := some "admin" } env.now
      (s, ⟨200, .auth "Admin login successful" token
        ⟨a._id, a.email, a.username, "admin"⟩⟩)
    | _, _ => (s, ⟨401, .message "Invalid credentials"⟩)

/-! ## Posts -/

/-- The `populate` of a user reference with the fields `email` and `username`. -/
def populateUser (s : Store) (id : Option ObjectId) : Option UserRef :=
  (findUser s id).map (fun u => ⟨u._id, some u.email, u.username⟩)

/-- The query modifier `.sort({ date: -1 })`: newest first. -/
def sortNewestFirst (ps : List Post) : List Post :=
  ps.insertionSort (fun a b => b.date ≤ a.date)

/-- The handler of `GET /api/posts`. -/
def listPosts (s : Store) : Store × Response :=
  (s, ⟨200, .posts ((sortNewestFirst s.posts).map (fun p => (p, populateUser s p.userId)))⟩)

/-- Mongoose validation of the `status` enum of a post. -/
def parsePostStatus (v : String) : Option PostStatus :=
  if v = "lost" then some .lost
  else if v = "found" then some .found
  else if v = "claimed" then some .claimed
  else none

/-- The handler of `POST /api/posts` behind `authenticateToken` and the upload.
The second test of name, item and description in the source repeats the first
and is never reached with a falsy field.  `save()` validates `status` against
the enum; the `catch` answers a validation error with 400 and its message. -/
def createPostHandler (env : Env) (s : Store) (user : TokenPayload) (body : PostBody)
    (file : Option Upload) : Store × Response :=
  if !truthy body.name || !truthy body.item || !truthy body.desc then
    (s, ⟨400, .message "Name, item, and description are required"⟩)
  else if body.status == some "lost" && !truthy body.contact then
    (s, ⟨400, .message "Contact is required for lost items"⟩)
  else
    let imageUrl := file.map (fun f => "/uploads/" ++ uploadFilename env.now f)
    let status := if truthy body.status then body.status.getD "" else "lost"
    match parsePostStatus status with
    | none =>
      (s, ⟨400, .message ("Post validation failed: status: `" ++ status
        ++ "` is not a valid enum value for path `status`.")⟩)
    | some st =>
      let post : Post :=
        { _id := env.newId, name := body.name.getD "", item := body.item.getD "",
          desc := body.desc.getD "", imageUrl := imageUrl, status := st,
          contact := if body.status == some "lost" then body.contact.getD "" else "",
          location := body.location, date := env.now, userId := user.userId }
      ({ s with posts := s.posts ++ [post] }, ⟨201, .post post none⟩)

/-- The route `POST /api/posts`: `authenticateToken`, `upload.single`, handler.
An upload the filter refuses ends in the default error handler (500). -/
def createPost (L : Lib) (env : Env) (s : Store) (authorization : Option String)
    (body : PostBody) (file : Option Upload) : Store × Response :=
  match authenticateToken L env.now authorization with
  | .error r => (s, r)
  | .ok user =>
    match file with
    | some f =>
      if fileFilter f then createPostHandler env s user body file
      else (s, ⟨500, .text "Only images allowed"⟩)
    | none => createPostHandler env s user body file

/-- The handler of `GET /api/posts/:id`. -/
def getPost (s : Store) (id : Option ObjectId) : Store × Response :=
  match id with
  | none => (s, ⟨500, .message "Server error while fetching post"⟩)
  | some i =>
    match findPost s i with
    | none => (s, ⟨404, .message "Post not found"⟩)
    | some p => (s, ⟨200, .post p (populateUser s p.userId)⟩)

/-- The handler of `GET /api/profile/posts` behind `authenticateToken`. -/
def profilePostsHandler (s : Store) (user : TokenPayload) : Store × Response :=
  (s, ⟨200, .ownPosts (sortNewestFirst (s.posts.filter (fun p => p.userId == user.userId)))⟩)

/-! ## Claims -/

/-- The handler of `GET /api/claims` behind `authenticateToken`. -/
def listClaimsHandler (s : Store) (user : TokenPayload) : Store × Response :=
  if user.role != some "admin" then (s, ⟨403, .message "Access denied"⟩)
  else
    (s, ⟨200, .claims (s.claims.map (fun c =>
      { claim := c,
        post := (findPost s c.postId).map (fun p =>
          (p, (findUser s p.userId).map (fun u => ⟨u._id, none, u.username⟩))),
        claimant := (findUser s c.claimantId).map (fun u => ⟨u._id, none, u.username⟩) }))⟩)

/-- The handler of `POST /api/posts/:id/claim` behind `authenticateToken`. -/
def createClaimHandler (env : Env) (s : Store) (user : TokenPayload)
    (id : Option ObjectId) : Store × Response :=
  match id with
  | none => (s, ⟨500, .message "Error submitting claim"⟩)
  | some postId =>
    let claimantId := user.userId
    match s.claims.find? (fun c => c.postId == postId && c.claimantId == claimantId) with
    | some _ => (s, ⟨400, .message "Already claimed"⟩)
    | none =>
      let claim : Claim :=
        { _id := env.newId, postId := postId, claimantId := claimantId,
          status := .pending, claimedAt := env.now }
      ({ s with claims := s.claims ++ [claim] }, ⟨201, .message "Claim submitted successfully"⟩)

/-- The handler of `POST /api/claims/:id/approve` behind `authenticateToken`.
Each `save()` is written to the store before the next statement runs, so a
`TypeError` on a missing post or claimant leaves the earlier writes in place. -/
def approveClaimHandler (env : Env) (s : Store) (id : Option ObjectId) : Store × Response :=
  match id with
  | none => (s, ⟨500, .message "Internal server error"⟩)
  | some claimId =>
    match findClaim s claimId with
    | none => (s, ⟨404, .message "Claim not found"⟩)
    | some claim =>
      let s1 : Store :=
        { s with claims := (updateFirst (fun c => c._id == claimId)
            (fun c => { c with status := .approved }) s.claims) }
      match findPost s claim.postId with
      | none => (s1, ⟨500, .message "Internal server error"⟩)
      | some post =>
        let s2 : Store :=
          { s1 with posts := (updateFirst (fun p => p._id == post._id)
              (fun p => { p with status := .claimed }) s1.posts) }
        match findUser s2 claim.claimantId with
        | none => (s2, ⟨500, .message "Internal server error"⟩)
        | some claimant =>
          let entry : Notification :=
            { message := "Your claim for \"" ++ post.item ++ "\" has been approved!",
              date := env.now }
          ({ s2 with users := (updateFirst (fun u => u._id == claimant._id)
              (fun u => { u with notifications := claimant.notifications ++ [entry] })
              s2.users) },
            ⟨200, .message "Claim approved"⟩)

/-- The handler of `POST /api/claims/:id/deny` behind `authenticateToken`.
The update `findByIdAndUpdate` is written before the claimant is read, so a
`TypeError` on a missing claimant or post leaves the claim denied. -/
def denyClaimHandler (env : Env) (s : Store) (id : Option ObjectId) : Store × Response :=
  match id with
  | none => (s, ⟨500, .message "Failed to deny claim"⟩)
  | some claimId =>
    match findClaim s claimId with
    | none => (s, ⟨500, .message "Failed to deny claim"⟩)
    | some claim =>
      let s1 : Store :=
        { s with claims := (updateFirst (fun c => c._id == claimId)
            (fun c => { c with status := .denied }) s.claims) }
      match findUser s1 claim.claimantId, findPost s1 claim.postId with
      | some user, some post =>
        let entry : Notification :=
          { message := "Your claim for \"" ++ post.item ++ "\" was denied.",
            date := env.now }
        ({ s1 with users := (updateFirst (fun u => u._id == user._id)
            (fun u => { u with notifications := user.notifications ++ [entry] })
            s1.users) },
          ⟨200, .message "Claim denied"⟩)
      | _, _ => (s1, ⟨500, .message "Failed to deny claim"⟩)

/-- The handler of `GET /api/claims/stats` behind `authenticateToken`. -/
def claimStatsHandler (s : Store) (user : TokenPayload) : Store × Response :=
  if user.role != some "admin" then (s, ⟨403, .message "Access denied"⟩)
  else
    (s, ⟨200, .stats s.posts.length
      (s.claims.filter (fun c => c.status == .pending)).length
      (s.claims.filter (fun c => c.status == .approved || c.status == .denied)).length⟩)

/-! ## Notifications and profile -/

/-- The handler of `POST /api/notifications/clear` behind `authenticateToken`. -/
def clearNotificationsHandler (s : Store) (user : TokenPayload) : Store × Response :=
  match user.userId with
  | none => (s, ⟨200, .message "Notifications cleared"⟩)
  | some uid =>
    ({ s with users := (updateFirst (fun u => u._id == uid)
        (fun u => { u with notifications := [] }) s.users) },
      ⟨200, .message "Notifications cleared"⟩)

/-- The handler of `GET /api/profile` behind `authenticateToken`. -/
def profileHandler (s : Store) (user : TokenPayload) : Store × Response :=
  match findUser s user.userId with
  | none => (s, ⟨500, .message "Profile fetch error"⟩)
  | some u => (s, ⟨200, .profile u.username u.createdAt u.notifications⟩)

/-! ## The server -/

/-- Run a handler behind the middleware `authenticateToken`. -/
def withAuth (L : Lib) (env : Env) (s : Store) (authorization : Option String)
    (handler : TokenPayload → Store × Response) : Store × Response :=
  match authenticateToken L env.now authorization with
  | .error r => (s, r)
  | .ok user => handler user

/-- The route `POST /api/posts/:id/claim`. -/
def createClaim (L : Lib) (env : Env) (s : Store) (authorization : Option String)
    (id : Option ObjectId) : Store × Response :=
  withAuth L env s authorization (fun user => createClaimHandler env s user id)

/-- The route `POST /api/claims/:id/approve`. -/
def approveClaim (L : Lib) (env : Env) (s : Store) (authorization : Option String)
    (id : Option ObjectId) : Store × Response :=
  withAuth L env s authorization (fun _ => approveClaimHandler env s id)

/-- The route `POST /api/claims/:id/deny`. -/
def denyClaim (L : Lib) (env : Env) (s : Store) (authorization : Option String)
    (id : Option ObjectId) : Store × Response :=
  withAuth L env s authorization (fun _ => denyClaimHandler env s id)

/-- One request against the server: the store afterwards and the response;
`none` is a request that never answers. -/
def step (L : Lib) (env : Env) (s : Store) : Request → Option (Store × Response)
  | .root => some (s, ⟨200, .text "🎉 FoundIt Backend is Running!"⟩)
  | .signup email password => signup L env s email password
  | .login email password => some (login L env s email password)
  | .listPosts => some (listPosts s)
  | .createPost authorization body file => some (createPost L env s authorization body file)
  | .getPost id => some (getPost s id)
  | .listClaims authorization =>
    some (withAuth L env s authorization (listClaimsHandler s))
  | .createClaim authorization id => some (createClaim L env s authorization id)
  | .approveClaim authorization id => some (approveClaim L env s authorization id)
  | .denyClaim authorization id => some (denyClaim L env s authorization id)
  | .claimStats authorization =>
    some (withAuth L env s authorization (claimStatsHandler s))
  | .clearNotifications authorization =>
    some (withAuth L env s authorization (clearNotificationsHandler s))
  | .profile authorization =>
    some (withAuth L env s authorization (profileHandler s))
  | .profilePosts authorization =>
    some (withAuth L env s authorization (profilePostsHandler s))

/-- A sequence of requests, one after the other; `none` when one never answers. -/
def run (L : Lib) : Store → List (Env × Request) → Option Store
  | s, [] => some s
  | s, (env, r) :: rest =>
    match step L env s r with
    | none => none
    | some (s1, _) => run L s1 rest

/-! ## Vocabulary of the properties -/

/-- The number a list of decimal digits denotes. -/
def decimalValue (l : List Char) : Nat :=
  l.foldl (fun acc c => acc * 10 + (c.toNat - 48)) 0

/-- The name the loop tries in its iteration `k`: the base name first, then the
base name followed by `1`, `2`, ... -/
def candidate (baseUsername : String) : Nat → String
  | 0 => baseUsername
  | k + 1 => baseUsername ++ jsNumberToString (k + 1)

/-- Some user document has this username. -/
def usernameTaken (users : List User) (name : String) : Prop :=
  ∃ u ∈ users, u.username = name

/-- What one request may do to a stored claim `c`, leaving `c1` in its place:
nothing but the status changes, and the status changes only to approved by an
approve request for the claim's id or to denied by a deny request for it. -/
def ClaimStep (r : Request) (c c1 : Claim) : Prop :=
  c1._id = c._id ∧ c1.postId = c.postId ∧ c1.claimantId = c.claimantId ∧
    c1.claimedAt = c.claimedAt ∧
    (c1.status = c.status ∨
     ((∃ a, r = .approveClaim a (some c._id)) ∧ c1.status = .approved) ∨
     ((∃ a, r = .denyClaim a (some c._id)) ∧ c1.status = .denied))

/-! ## Example data -/

/-- A concrete instance of the libraries, for evaluating the handlers on
examples: hashing prefixes the password, and two bearer tokens verify, one of
the user `bob` (role `user`) and one of an administrator. -/
def exampleLib : Lib where
  bcryptHash := fun password _ => "hash:" ++ password
  bcryptCompare := fun password hash => hash == "hash:" ++ password
  jwtSign := fun _ _ => "signed"
  jwtVerify := fun token _ =>
    if token = "user-token" then
      some { userId := some 2, adminId := none, email := some "bob@students.riphah.edu.pk",
             username := some "bob", role := some "user" }
    else if token = "admin-token" then
      some { userId := none, adminId := some 7, email := some "root@admin.riphah.edu.pk",
             username := some "root", role := some "admin" }
    else none

/-- An example environment. -/
def exampleEnv : Env := ⟨1000, 5, 500⟩

/-- A later example environment. -/
def exampleEnvLater : Env := ⟨2000, 6, 501⟩

/-- An example database: users `alice` and `bob`, one administrator, a found
wallet posted by `alice`, a pending claim of `bob` on it and a denied claim. -/
def exampleStore : Store where
  users :=
    [⟨1, "alice@students.riphah.edu.pk", "alice", "hash:secret1", [], 10⟩,
     ⟨2, "bob@students.riphah.edu.pk", "bob", "hash:secret2", [], 20⟩]
  admins := [⟨7, "root@admin.riphah.edu.pk", "root", "hash:secret7", 5⟩]
  posts := [⟨10, "Wallet", "Wallet", "Black leather", none, .found, "", none, 30, some 1⟩]
  claims := [⟨100, 10, some 2, .pending, 40⟩, ⟨101, 10, some 1, .denied, 50⟩]

/-! ## Lemmas on strings -/

theorem digitChar_value (n : Nat) (h : n < 10) : (Nat.digitChar n).toNat - 48 = n := by
  interval_cases n <;> rfl

theorem decimalValue_append_singleton (l : List Char) (c : Char) :
    decimalValue (l ++ [c]) = decimalValue l * 10 + (c.toNat - 48) := by
  simp [decimalValue, List.foldl_append]

theorem decimalValue_decimal (fuel n : Nat) (h : n < fuel) :
    decimalValue (decimal fuel n) = n := by
  induction fuel generalizing n with
  | zero => omega
  | succ fuel ih =>
    unfold decimal
    split
    · next hlt => simpa [decimalValue] using digitChar_value n hlt
    · next hge =>
      rw [decimalValue_append_singleton, ih (n / 10) (by omega),
        digitChar_value (n % 10) (Nat.mod_lt _ (by decide))]
      omega

theorem decimal_ne_nil (fuel n : Nat) : decimal (fuel + 1) n ≠ [] := by
  unfold decimal
  split <;> simp

theorem jsNumberToString_injective : Function.Injective jsNumberToString := by
  intro a b h
  have h1 : decimal (a + 1) a = decimal (b + 1) b := congrArg String.data h
  have h2 := congrArg decimalValue h1
  rwa [decimalValue_decimal _ _ (Nat.lt_succ_self a),
    decimalValue_decimal _ _ (Nat.lt_succ_self b)] at h2

theorem jsNumberToString_data_ne_nil (n : Nat) : (jsNumberToString n).data ≠ [] :=
  decimal_ne_nil n n

theorem splitChars_head (sep : Char) (l : List Char) :
    ∃ w ws rest, splitChars sep l = w :: ws ∧ sep ∉ w ∧ l = w ++ rest ∧
      (rest = [] ∨ ∃ r, rest = sep :: r) := by
  induction l with
  | nil => exact ⟨[], [], [], rfl, by simp, rfl, Or.inl rfl⟩
  | cons c cs ih =>
    obtain ⟨w, ws, rest, hs, hw, hl, hr⟩ := ih
    by_cases hc : c = sep
    · exact ⟨[], splitChars sep cs, c :: cs, by simp [splitChars, hc], by simp, rfl,
        Or.inr ⟨cs, by rw [hc]⟩⟩
    · refine ⟨c :: w, ws, rest, by simp [splitChars, hc, hs], ?_, by simp [hl], hr⟩
      simp only [List.mem_cons, not_or]
      exact ⟨fun h => hc h.symm, hw⟩

/-- The first piece of `s.split(sep)` is the text of `s` before the first `sep`. -/
theorem jsSplit_head (s : String) (sep : Char) :
    ∃ rest, s.data = ((jsSplit s sep).headD "").data ++ rest ∧
      sep ∉ ((jsSplit s sep).headD "").data ∧ (rest = [] ∨ ∃ r, rest = sep :: r) := by
  obtain ⟨w, ws, rest, hs, hw, hl, hr⟩ := splitChars_head sep s.data
  have hd : ((jsSplit s sep).headD "").data = w := by simp [jsSplit, hs]
  rw [hd]
  exact ⟨rest, hl, hw, hr⟩

/-! ## Lemmas on `updateFirst` -/

theorem updateFirst_of_find_none {α : Type} (p : α → Bool) (f : α → α) (l : List α)
    (h : l.find? p = none) : updateFirst p f l = l := by
  induction l with
  | nil => rfl
  | cons x xs ih =>
    by_cases hx : p x = true
    · simp [List.find?, hx] at h
    · have hx2 : p x = false := by simpa using hx
      simp only [List.find?, hx2] at h
      simp [updateFirst, hx2, ih h]

theorem updateFirst_eq_set {α : Type} (p : α → Bool) (l : List α) (x : α)
    (h : l.find? p = some x) :
    ∃ i, l[i]? = some x ∧ ∀ f : α → α, updateFirst p f l = l.set i (f x) := by
  induction l with
  | nil => simp at h
  | cons y ys ih =>
    by_cases hy : p y = true
    · simp only [List.find?, hy, Option.some.injEq] at h
      subst h
      exact ⟨0, by simp, fun f => by simp [updateFirst, hy]⟩
    · have hy2 : p y = false := by simpa using hy
      simp only [List.find?, hy2] at h
      obtain ⟨i, hi, hset⟩ := ih h
      exact ⟨i + 1, by simpa using hi, fun f => by simp [updateFirst, hy2, hset f]⟩

theorem find_updateFirst {α : Type} (p : α → Bool) (f : α → α) (l : List α)
    (hp : ∀ x, p (f x) = p x) :
    (updateFirst p f l).find? p = (l.find? p).map f := by
  induction l with
  | nil => rfl
  | cons y ys ih =>
    by_cases hy : p y = true
    · have hfy : p (f y) = true := by rw [hp, hy]
      simp [updateFirst, List.find?, hy, hfy]
    · have hy2 : p y = false := by simpa using hy
      simp [updateFirst, List.find?, hy2, ih]

theorem updateFirst_idem {α : Type} (p : α → Bool) (f : α → α) (l : List α)
    (hp : ∀ x, p (f x) = p x) (hf : ∀ x, f (f x) = f x) :
    updateFirst p f (updateFirst p f l) = updateFirst p f l := by
  induction l with
  | nil => rfl
  | cons y ys ih =>
    by_cases hy : p y = true
    · have hfy : p (f y) = true := by rw [hp, hy]
      simp [updateFirst, hy, hfy, hf]
    · have hy2 : p y = false := by simpa using hy
      simp [updateFirst, hy2, ih]

theorem updateFirst_getElem? {α : Type} (p : α → Bool) (f : α → α) (l : List α)
    (i : Nat) (x : α) (h : l[i]? = some x) :
    (updateFirst p f l)[i]? = some x ∨
      (p x = true ∧ (updateFirst p f l)[i]? = some (f x)) := by
  induction l generalizing i with
  | nil => simp at h
  | cons y ys ih =>
    by_cases hy : p y = true
    · cases i with
      | zero =>
        simp only [List.getElem?_cons_zero, Option.some.injEq] at h
        subst h
        exact Or.inr ⟨hy, by simp [updateFirst, hy]⟩
      | succ i => exact Or.inl (by simpa [updateFirst, hy] using h)
    · have hy2 : p y = false := by simpa using hy
      cases i with
      | zero => exact Or.inl (by simpa [updateFirst, hy2] using h)
      | succ i =>
        have h2 : ys[i]? = some x := by simpa using h
        simpa [updateFirst, hy2] using ih i h2

/-! ## The username loop -/

theorem find_username_isSome (users : List User) (name : String) :
    (users.find? (fun u => u.username == name)).isSome = true ↔ usernameTaken users name := by
  simp [usernameTaken, List.find?_isSome]

theorem candidate_injective (base : String) : Function.Injective (candidate base) := by
  intro i j h
  have key : ∀ a b : String, base ++ a = base ++ b → a = b := by
    intro a b hab
    have := congrArg String.data hab
    simp only [String.data_append, List.append_cancel_left_eq] at this
    exact String.ext this
  have absurd_case : ∀ k, base ≠ base ++ jsNumberToString (k + 1) := by
    intro k hk
    have := congrArg String.data hk
    simp only [String.data_append, List.self_eq_append_right] at this
    exact jsNumberToString_data_ne_nil _ this
  cases i with
  | zero =>
    cases j with
    | zero => rfl
    | succ j => exact absurd h (absurd_case j)
  | succ i =>
    cases j with
    | zero => exact absurd h.symm (absurd_case i)
    | succ j => exact jsNumberToString_injective (key _ _ h)

theorem usernameLoop_spec (users : List User) (base : String) (fuel i : Nat)
    (username : String)
    (h : usernameLoop users base fuel (candidate base i) (i + 1) = some username) :
    ∃ k, i ≤ k ∧ username = candidate base k ∧ ¬ usernameTaken users (candidate base k) ∧
      ∀ j, i ≤ j → j < k → usernameTaken users (candidate base j) := by
  induction fuel generalizing i with
  | zero => simp [usernameLoop] at h
  | succ fuel ih =>
    unfold usernameLoop at h
    split at h
    · next ht =>
      obtain ⟨k, hik, hu, hfree, hall⟩ := ih (i + 1) h
      refine ⟨k, by omega, hu, hfree, ?_⟩
      intro j hij hjk
      by_cases hji : j = i
      · subst hji
        exact (find_username_isSome _ _).1 ht
      · exact hall j (by omega) hjk
    · next ht =>
      refine ⟨i, le_refl _, ?_, ?_, ?_⟩
      · exact (Option.some.inj h).symm
      · exact fun hc => ht ((find_username_isSome _ _).2 hc)
      · intro j hij hji
        omega

theorem usernameLoop_isSome (users : List User) (base : String) (fuel i : Nat)
    (h : ∃ k, i ≤ k ∧ k < i + fuel ∧ ¬ usernameTaken users (candidate base k)) :
    (usernameLoop users base fuel (candidate base i) (i + 1)).isSome = true := by
  induction fuel generalizing i with
  | zero =>
    obtain ⟨k, h1, h2, _⟩ := h
    omega
  | succ fuel ih =>
    unfold usernameLoop
    split
    · next ht =>
      apply ih (i + 1)
      obtain ⟨k, h1, h2, h3⟩ := h
      refine ⟨k, ?_, by omega, h3⟩
      by_contra hlt
      have hk : k = i := by omega
      subst hk
      exact h3 ((find_username_isSome _ _).1 ht)
    · rfl

/-- Among the first `users.length + 1` names the loop tries, one is free. -/
theorem exists_free_candidate (users : List User) (base : String) :
    ∃ k, k < users.length + 1 ∧ ¬ usernameTaken users (candidate base k) := by
  by_contra hcon
  push_neg at hcon
  have hsub : (List.range (users.length + 1)).map (candidate base)
      ⊆ users.map (fun u => u.username) := by
    intro name hname
    obtain ⟨k, hk, rfl⟩ := List.mem_map.1 hname
    obtain ⟨u, hu, hun⟩ := hcon k (List.mem_range.1 hk)
    exact List.mem_map.2 ⟨u, hu, hun⟩
  have hnodup : ((List.range (users.length + 1)).map (candidate base)).Nodup :=
    (List.nodup_range _).map (candidate_injective base)
  have hlen := (List.subperm_of_subset hnodup hsub).length_le
  simp at hlen

theorem usernameLoop_terminates (users : List User) (base : String) (fuel : Nat)
    (h : users.length + 1 ≤ fuel) :
    ∃ k, usernameLoop users base fuel base 1 = some (candidate base k) ∧
      ¬ usernameTaken users (candidate base k) ∧
      ∀ j, j < k → usernameTaken users (candidate base j) := by
  obtain ⟨k0, hk0, hfree0⟩ := exists_free_candidate users base
  have hsome := usernameLoop_isSome users base fuel 0 ⟨k0, Nat.zero_le _, by omega, hfree0⟩
  obtain ⟨username, hu⟩ := Option.isSome_iff_exists.1 hsome
  obtain ⟨k, _, hk, hfree, hall⟩ := usernameLoop_spec users base fuel 0 username hu
  refine ⟨k, ?_, hfree, fun j hj => hall j (Nat.zero_le _) hj⟩
  rw [← hk]
  exact hu

theorem least_free_unique (users : List User) (base : String) (a b : Nat)
    (ha : ¬ usernameTaken users (candidate base a))
    (ha2 : ∀ j, j < a → usernameTaken users (candidate base j))
    (hb : ¬ usernameTaken users (candidate base b))
    (hb2 : ∀ j, j < b → usernameTaken users (candidate base j)) : a = b := by
  rcases Nat.lt_trichotomy a b with h | h | h
  · exact absurd (hb2 a h) ha
  · exact h
  · exact absurd (ha2 b h) hb

/-! ## Username derivation -/

/-- C10: the username loop of signup terminates (any bound of at least one more
iteration than there are user documents gives the same result) and yields the
first free candidate: the email's local part (the text before the first `@`)
when no user has it, otherwise the local part followed by the decimal form of
the least `k ≥ 1` whose name no user has; the result is no user's username. -/
theorem usernameLoop_first_free (users : List User) (email : String) :
    (∃ rest, email.data = (localPart email).data ++ rest ∧ '@' ∉ (localPart email).data ∧
      (rest = [] ∨ ∃ r, rest = '@' :: r)) ∧
    ∃ username,
      (∀ fuel, users.length + 1 ≤ fuel →
        usernameLoop users (localPart email) fuel (localPart email) 1 = some username) ∧
      ¬ usernameTaken users username ∧
      ((¬ usernameTaken users (localPart email) ∧ username = localPart email) ∨
       (usernameTaken users (localPart email) ∧
        ∃ k, 1 ≤ k ∧ username = localPart email ++ jsNumberToString k ∧
          decimalValue (jsNumberToString k).data = k ∧
          ∀ j, 1 ≤ j → j < k →
            usernameTaken users (localPart email ++ jsNumberToString j))) := by
  refine ⟨jsSplit_head email '@', ?_⟩
  obtain ⟨k, hk, hfree, hall⟩ :=
    usernameLoop_terminates users (localPart email) (users.length + 1) (le_refl _)
  refine ⟨candidate (localPart email) k, ?_, hfree, ?_⟩
  · intro fuel hfuel
    obtain ⟨k2, hk2, hfree2, hall2⟩ := usernameLoop_terminates users (localPart email) fuel hfuel
    rw [hk2, least_free_unique users (localPart email) k2 k hfree2 hall2 hfree hall]
  · cases k with
    | zero => exact Or.inl ⟨hfree, rfl⟩
    | succ k =>
      refine Or.inr ⟨hall 0 (Nat.succ_pos k), k + 1, Nat.succ_pos k, rfl, ?_, ?_⟩
      · exact decimalValue_decimal _ _ (Nat.lt_succ_self _)
      · intro j hj1 hjk
        obtain ⟨i, rfl⟩ : ∃ i, j = i + 1 := ⟨j - 1, by omega⟩
        exact hall (i + 1) hjk

theorem usernameLoop_first_free_witness :
    ∃ username,
      usernameLoop exampleStore.users (localPart "bob@faculty.riphah.edu.pk") 3
        (localPart "bob@faculty.riphah.edu.pk") 1 = some username ∧
      username = "bob1" ∧ ¬ usernameTaken exampleStore.users username := by
  obtain ⟨_, username, hloop, hfree, _⟩ :=
    usernameLoop_first_free exampleStore.users "bob@faculty.riphah.edu.pk"
  have h3 := hloop 3 (by decide)
  refine ⟨username, h3, ?_, hfree⟩
  have h : usernameLoop exampleStore.users (localPart "bob@faculty.riphah.edu.pk") 3
      (localPart "bob@faculty.riphah.edu.pk") 1 = some "bob1" := by decide
  exact Option.some.inj (h3.symm.trans h)

/-! ## Signup -/

/-- Every signup answers, and it either leaves the user collection as it was
or appends one document whose username no earlier user document has. -/
theorem signup_users (L : Lib) (env : Env) (s : Store) (email password : Option String) :
    ∃ s1 resp, signup L env s email password = some (s1, resp) ∧
      (s1.users = s.users ∨
        ∃ u, s1.users = s.users ++ [u] ∧ ¬ usernameTaken s.users u.username) := by
  unfold signup
  cases email with
  | none => exact ⟨_, _, rfl, Or.inl rfl⟩
  | some email =>
    cases password with
    | none => exact ⟨_, _, rfl, Or.inl rfl⟩
    | some password =>
      simp only
      split
      · split
        · exact ⟨_, _, rfl, Or.inl rfl⟩
        · exact ⟨_, _, rfl, Or.inl rfl⟩
      · split
        · exact ⟨_, _, rfl, Or.inl rfl⟩
        · split
          · exact ⟨_, _, rfl, Or.inl rfl⟩
          · obtain ⟨k, hk, hfree, _⟩ :=
              usernameLoop_terminates s.users (localPart email) (s.users.length + 1) (le_refl _)
            rw [hk]
            exact ⟨_, _, rfl, Or.inr ⟨_, rfl, hfree⟩⟩

theorem run_signups_nodup (L : Lib) (rs : List (Env × Option String × Option String))
    (s : Store) (hs : (s.users.map (fun u => u.username)).Nodup) :
    ∃ s1, run L s (rs.map (fun r => (r.1, Request.signup r.2.1 r.2.2))) = some s1 ∧
      (s1.users.map (fun u => u.username)).Nodup := by
  induction rs generalizing s with
  | nil => exact ⟨s, rfl, hs⟩
  | cons r rs ih =>
    obtain ⟨s1, resp, hstep, husers⟩ := signup_users L r.1 s r.2.1 r.2.2
    have hnodup : (s1.users.map (fun u => u.username)).Nodup := by
      rcases husers with h | ⟨u, h, hfree⟩
      · rw [h]
        exact hs
      · rw [h, List.map_append, List.map_singleton]
        refine List.Nodup.append hs (List.nodup_singleton _) ?_
        intro name hmem hname
        obtain ⟨v, hv, hvu⟩ := List.mem_map.1 hmem
        rw [List.mem_singleton] at hname
        exact hfree ⟨v, hv, hvu.trans hname⟩
    obtain ⟨s2, hrun, h2⟩ := ih s1 hnodup
    refine ⟨s2, ?_, h2⟩
    simp only [List.map_cons, run, step, hstep]
    exact hrun

/-- C8 (as the code has it): after any sequence of signups run one after the
other from the empty store, every signup has answered and no two user documents
have the same username. -/
theorem signup_usernames_unique_among_users (L : Lib)
    (rs : List (Env × Option String × Option String)) :
    ∃ s, run L Store.empty (rs.map (fun r => (r.1, Request.signup r.2.1 r.2.2))) = some s ∧
      (s.users.map (fun u => u.username)).Nodup :=
  run_signups_nodup L rs Store.empty List.nodup_nil

/-- C8 fails as stated: an administrator signup followed by a user signup with
the same local part both succeed and both documents get the username `bob`. -/
theorem signup_username_shared_by_admin_and_user :
    step exampleLib exampleEnv Store.empty
        (.signup (some "bob@admin.riphah.edu.pk") (some "secret1"))
      = some (⟨[], [⟨500, "bob@admin.riphah.edu.pk", "bob", "hash:secret1", 1000⟩], [], []⟩,
          ⟨201, .auth "Admin created" "signed"
            ⟨500, "bob@admin.riphah.edu.pk", "bob", "admin"⟩⟩) ∧
    step exampleLib exampleEnvLater
        ⟨[], [⟨500, "bob@admin.riphah.edu.pk", "bob", "hash:secret1", 1000⟩], [], []⟩
        (.signup (some "bob@students.riphah.edu.pk") (some "secret2"))
      = some (⟨[⟨501, "bob@students.riphah.edu.pk", "bob", "hash:secret2", [], 2000⟩],
            [⟨500, "bob@admin.riphah.edu.pk", "bob", "hash:secret1", 1000⟩], [], []⟩,
          ⟨201, .auth "User created" "signed"
            ⟨501, "bob@students.riphah.edu.pk", "bob", "user"⟩⟩) := by
  constructor <;> decide

/-- A signup whose email and password are strings, for an email outside the
administrator domain, is refused with 400 and stores nothing unless the email
ends in the student or faculty domain and the password has six code units. -/
theorem signup_rejects_invalid (L : Lib) (env : Env) (s : Store) (email password : String)
    (hadmin : jsEndsWith email "@admin.riphah.edu.pk" = false)
    (hbad : ¬ ((jsEndsWith email "@students.riphah.edu.pk" = true
        ∨ jsEndsWith email "@faculty.riphah.edu.pk" = true) ∧ 6 ≤ jsLength password)) :
    signup L env s (some email) (some password)
      = some (s, ⟨400, .message "Invalid email or password"⟩) := by
  have hcond : (email.data.isEmpty || password.data.isEmpty
      || (!jsEndsWith email "@students.riphah.edu.pk"
          && !jsEndsWith email "@faculty.riphah.edu.pk")
      || decide (jsLength password < 6)) = true := by
    by_cases h1 : jsEndsWith email "@students.riphah.edu.pk" = true
    · have : jsLength password < 6 := by
        by_contra hlt
        exact hbad ⟨Or.inl h1, by omega⟩
      simp [this]
    · by_cases h2 : jsEndsWith email "@faculty.riphah.edu.pk" = true
      · have : jsLength password < 6 := by
          by_contra hlt
          exact hbad ⟨Or.inr h2, by omega⟩
        simp [this]
      · simp [h1, h2]
  simp only [signup, hadmin, hcond]
  rfl

theorem signup_rejects_invalid_witness :
    signup exampleLib exampleEnv exampleStore (some "carol@gmail.com") (some "secret1")
      = some (exampleStore, ⟨400, .message "Invalid email or password"⟩) :=
  signup_rejects_invalid exampleLib exampleEnv exampleStore "carol@gmail.com" "secret1"
    (by decide) (by decide)

/-- C7 fails on the code: a signup without the email field, or without the
password field, is answered 500 by the `catch`, not 400. -/
theorem signup_missing_field_is_500 :
    step exampleLib exampleEnv exampleStore (.signup none (some "secret1"))
      = some (exampleStore, ⟨500, .message "Server error during signup"⟩) ∧
    step exampleLib exampleEnv exampleStore
        (.signup (some "carol@students.riphah.edu.pk") none)
      = some (exampleStore, ⟨500, .message "Server error during signup"⟩) := by
  constructor <;> rfl

/-! ## Login -/

/-- A login whose password is a string that verifies against no account with
that email is answered 401 `Invalid credentials`, the store unchanged. -/
theorem login_wrong_password (L : Lib) (env : Env) (s : Store) (email : Option String)
    (password : String)
    (hu : ∀ u ∈ s.users, some u.email = email → L.bcryptCompare password u.password = false)
    (ha : ∀ a ∈ s.admins, some a.email = email → L.bcryptCompare password a.password = false) :
    login L env s email (some password) = (s, ⟨401, .message "Invalid credentials"⟩) := by
  have huser : ∀ u, (email.bind (fun e => s.users.find? (fun u => u.email == e))) = some u →
      L.bcryptCompare password u.password = false := by
    intro u h
    cases email with
    | none => simp at h
    | some e =>
      simp only [Option.bind_some] at h
      have hm := List.mem_of_find?_eq_some h
      have hp := List.find?_some h
      exact hu u hm (by simpa using hp)
  have hadmin : ∀ a, (email.bind (fun e => s.admins.find? (fun a => a.email == e))) = some a →
      L.bcryptCompare password a.password = false := by
    intro a h
    cases email with
    | none => simp at h
    | some e =>
      simp only [Option.bind_some] at h
      have hm := List.mem_of_find?_eq_some h
      have hp := List.find?_some h
      exact ha a hm (by simpa using hp)
  unfold login
  simp only
  cases hU : (email.bind (fun e => s.users.find? (fun u => u.email == e))) with
  | none =>
    cases hA : (email.bind (fun e => s.admins.find? (fun a => a.email == e))) with
    | none => simp [passwordMatches]
    | some a => simp [passwordMatches, hadmin a hA]
  | some u =>
    cases hA : (email.bind (fun e => s.admins.find? (fun a => a.email == e))) with
    | none => simp [passwordMatches, huser u hU]
    | some a => simp [passwordMatches, huser u hU, hadmin a hA]

theorem login_wrong_password_witness :
    login exampleLib exampleEnv exampleStore (some "alice@students.riphah.edu.pk")
        (some "wrong-password")
      = (exampleStore, ⟨401, .message "Invalid credentials"⟩) :=
  login_wrong_password exampleLib exampleEnv exampleStore _ "wrong-password"
    (by decide) (by decide)

/-- C9 fails on the code: a login without the password field is answered 500
`Server error during login` when an account has the email, and 401
`Invalid credentials` when none has, so the two responses tell whether the
email exists. -/
theorem login_missing_password_reveals_account :
    step exampleLib exampleEnv exampleStore
        (.login (some "alice@students.riphah.edu.pk") none)
      = some (exampleStore, ⟨500, .message "Server error during login"⟩) ∧
    step exampleLib exampleEnv exampleStore
        (.login (some "nobody@students.riphah.edu.pk") none)
      = some (exampleStore, ⟨401, .message "Invalid credentials"⟩) := by
  constructor <;> decide

/-! ## Post creation -/

/-- A post request with name, item and description whose status is the string
`lost` and whose contact is empty is refused with 400 and stores nothing. -/
theorem createPost_lost_without_contact (env : Env) (s : Store) (user : TokenPayload)
    (body : PostBody) (file : Option Upload)
    (hname : truthy body.name = true) (hitem : truthy body.item = true)
    (hdesc : truthy body.desc = true) (hstatus : body.status = some "lost")
    (hcontact : truthy body.contact = false) :
    createPostHandler env s user body file
      = (s, ⟨400, .message "Contact is required for lost items"⟩) := by
  simp [createPostHandler, hname, hitem, hdesc, hstatus, hcontact]

theorem createPost_lost_without_contact_witness :
    createPostHandler exampleEnv exampleStore ⟨some 2, none, none, none, some "user"⟩
        ⟨some "Keys", some "Keys", some "Lost near the lab", some "lost", some "", none⟩ none
      = (exampleStore, ⟨400, .message "Contact is required for lost items"⟩) :=
  createPost_lost_without_contact _ _ _ _ _ (by decide) (by decide) (by decide) rfl
    (by decide)

/-- A post request with name, item and description whose status is the string
`found` and whose contact is empty is answered 201 and stores a post with
status `found` and contact `''`. -/
theorem createPost_found_without_contact (env : Env) (s : Store) (user : TokenPayload)
    (body : PostBody) (file : Option Upload)
    (hname : truthy body.name = true) (hitem : truthy body.item = true)
    (hdesc : truthy body.desc = true) (hstatus : body.status = some "found") :
    ∃ post, createPostHandler env s user body file
        = ({ s with posts := s.posts ++ [post] }, ⟨201, .post post none⟩) ∧
      post.status = .found ∧ post.contact = "" := by
  refine ⟨Post.mk env.newId (body.name.getD "") (body.item.getD "") (body.desc.getD "")
    (file.map (fun f => "/uploads/" ++ uploadFilename env.now f)) .found ""
    body.location env.now user.userId, ?_, rfl, rfl⟩
  simp only [createPostHandler, hname, hitem, hdesc, hstatus]
  rfl

theorem createPost_found_without_contact_witness :
    ∃ post, createPostHandler exampleEnv exampleStore ⟨some 2, none, none, none, some "user"⟩
          ⟨some "Wallet", some "Wallet", some "Black leather", some "found", none, none⟩ none
        = ({ exampleStore with posts := exampleStore.posts ++ [post] },
            ⟨201, .post post none⟩) ∧
      post.status = .found ∧ post.contact = "" :=
  createPost_found_without_contact _ _ _ _ _ (by decide) (by decide) (by decide) rfl

/-- C6 fails on the code: a post request that omits status and contact passes
the contact check, which tests the raw field, and is stored by the default
with status `lost` and contact `''`, answered 201. -/
theorem createPost_default_lost_without_contact :
    step exampleLib exampleEnv exampleStore
        (.createPost (some "Bearer user-token")
          ⟨some "Keys", some "Keys", some "Lost near the lab", none, none, none⟩ none)
      = some ({ exampleStore with
            posts := exampleStore.posts ++
              [⟨500, "Keys", "Keys", "Lost near the lab", none, .lost, "", none, 1000, some 2⟩] },
          ⟨201, .post
            ⟨500, "Keys", "Keys", "Lost near the lab", none, .lost, "", none, 1000, some 2⟩
            none⟩) := by
  decide

/-! ## Role check of approve and deny -/

/-- C1 fails on the code: with the bearer token of a user (role `user`), approve
and deny of a pending claim are answered 200 and change the claim, the post and
the claimant's notifications. -/
theorem approve_and_deny_accept_user_token :
    authenticateToken exampleLib exampleEnv.now (some "Bearer user-token")
      = .ok ⟨some 2, none, some "bob@students.riphah.edu.pk", some "bob", some "user"⟩ ∧
    step exampleLib exampleEnv exampleStore (.approveClaim (some "Bearer user-token") (some 100))
      = some ({ exampleStore with
            users :=
              [⟨1, "alice@students.riphah.edu.pk", "alice", "hash:secret1", [], 10⟩,
               ⟨2, "bob@students.riphah.edu.pk", "bob", "hash:secret2",
                 [⟨"Your claim for \"Wallet\" has been approved!", 1000⟩], 20⟩],
            posts :=
              [⟨10, "Wallet", "Wallet", "Black leather", none, .claimed, "", none, 30, some 1⟩],
            claims := [⟨100, 10, some 2, .approved, 40⟩, ⟨101, 10, some 1, .denied, 50⟩] },
          ⟨200, .message "Claim approved"⟩) ∧
    step exampleLib exampleEnv exampleStore (.denyClaim (some "Bearer user-token") (some 100))
      = some ({ exampleStore with
            users :=
              [⟨1, "alice@students.riphah.edu.pk", "alice", "hash:secret1", [], 10⟩,
               ⟨2, "bob@students.riphah.edu.pk", "bob", "hash:secret2",
                 [⟨"Your claim for \"Wallet\" was denied.", 1000⟩], 20⟩],
            claims := [⟨100, 10, some 2, .denied, 40⟩, ⟨101, 10, some 1, .denied, 50⟩] },
          ⟨200, .message "Claim denied"⟩) := by
  refine ⟨rfl, ?_, ?_⟩ <;> decide

/-! ## Claim creation -/

theorem withAuth_ok (L : Lib) (env : Env) (s : Store) (authorization : Option String)
    (user : TokenPayload) (handler : TokenPayload → Store × Response)
    (h : authenticateToken L env.now authorization = .ok user) :
    withAuth L env s authorization handler = handler user := by
  simp [withAuth, h]

theorem find_append_new {α : Type} (p : α → Bool) (l : List α) (x : α)
    (hl : l.find? p = none) (hx : p x = true) : (l ++ [x]).find? p = some x := by
  simp [List.find?_append, hl, List.find?, hx]

theorem filter_append_new {α : Type} (p : α → Bool) (l : List α) (x : α)
    (hl : l.find? p = none) (hx : p x = true) : (l ++ [x]).filter p = [x] := by
  have hnone : l.filter p = [] := by
    rw [List.filter_eq_nil_iff]
    intro a ha
    have := List.find?_eq_none.1 hl a ha
    simpa using this
  simp [List.filter_append, hnone, List.filter, hx]

/-- C2: from a store with no claim for the pair (post, claimant), two claim
requests of the same claimant on the same post store exactly one claim for the
pair, in status pending: the first is answered 201 and appends it, the second
is answered 400 `Already claimed` and leaves the whole store unchanged. -/
theorem createClaim_twice (L : Lib) (env1 env2 : Env) (s : Store)
    (auth1 auth2 : Option String) (user : TokenPayload) (postId : ObjectId)
    (h1 : authenticateToken L env1.now auth1 = .ok user)
    (h2 : authenticateToken L env2.now auth2 = .ok user)
    (hfresh : ∀ c ∈ s.claims, ¬ (c.postId = postId ∧ c.claimantId = user.userId)) :
    ∃ s1,
      createClaim L env1 s auth1 (some postId)
        = (s1, ⟨201, .message "Claim submitted successfully"⟩) ∧
      createClaim L env2 s1 auth2 (some postId)
        = (s1, ⟨400, .message "Already claimed"⟩) ∧
      s1.claims = s.claims ++ [⟨env1.newId, postId, user.userId, .pending, env1.now⟩] ∧
      s1.claims.filter (fun c => c.postId == postId && c.claimantId == user.userId)
        = [⟨env1.newId, postId, user.userId, .pending, env1.now⟩] ∧
      s1.users = s.users ∧ s1.admins = s.admins ∧ s1.posts = s.posts := by
  have hnone : s.claims.find?
      (fun c => c.postId == postId && c.claimantId == user.userId) = none := by
    rw [List.find?_eq_none]
    intro c hc hpair
    apply hfresh c hc
    simpa using hpair
  have hnew : (fun c : Claim => c.postId == postId && c.claimantId == user.userId)
      ⟨env1.newId, postId, user.userId, .pending, env1.now⟩ = true := by simp
  refine ⟨{ s with claims := s.claims ++ [⟨env1.newId, postId, user.userId, .pending, env1.now⟩] },
    ?_, ?_, rfl, filter_append_new _ _ _ hnone hnew, rfl, rfl, rfl⟩
  · rw [createClaim, withAuth_ok L env1 s auth1 user _ h1]
    simp only [createClaimHandler, hnone]
  · rw [createClaim, withAuth_ok L env2 _ auth2 user _ h2]
    simp only [createClaimHandler, find_append_new _ _ _ hnone hnew]

theorem createClaim_twice_witness :
    ∃ s1,
      createClaim exampleLib exampleEnv exampleStore (some "Bearer user-token") (some 11)
        = (s1, ⟨201, .message "Claim submitted successfully"⟩) ∧
      createClaim exampleLib exampleEnvLater s1 (some "Bearer user-token") (some 11)
        = (s1, ⟨400, .message "Already claimed"⟩) ∧
      s1.claims = exampleStore.claims ++ [⟨500, 11, some 2, .pending, 1000⟩] ∧
      s1.claims.filter (fun c => c.postId == 11 && c.claimantId == some 2)
        = [⟨500, 11, some 2, .pending, 1000⟩] ∧
      s1.users = exampleStore.users ∧ s1.admins = exampleStore.admins ∧
      s1.posts = exampleStore.posts :=
  createClaim_twice exampleLib exampleEnv exampleEnvLater exampleStore
    (some "Bearer user-token") (some "Bearer user-token")
    ⟨some 2, none, some "bob@students.riphah.edu.pk", some "bob", some "user"⟩ 11
    rfl rfl (by decide)

/-! ## Approval -/

/-- The store and response of an approval whose claim, post and claimant exist. -/
theorem approveClaimHandler_eq (env : Env) (s : Store) (id : ObjectId)
    (c : Claim) (p : Post) (u : User)
    (hc : findClaim s id = some c) (hp : findPost s c.postId = some p)
    (hu : findUser s c.claimantId = some u) :
    approveClaimHandler env s (some id)
      = (⟨updateFirst (fun x => x._id == u._id)
            (fun x => { x with notifications := u.notifications ++
              [⟨"Your claim for \"" ++ p.item ++ "\" has been approved!", env.now⟩] }) s.users,
          s.admins,
          updateFirst (fun x => x._id == p._id) (fun x => { x with status := .claimed }) s.posts,
          updateFirst (fun x => x._id == id) (fun x => { x with status := .approved }) s.claims⟩,
        ⟨200, .message "Claim approved"⟩) := by
  have hu2 : findUser
      { s with
        claims := (updateFirst (fun x => x._id == id)
          (fun x => { x with status := .approved }) s.claims),
        posts := (updateFirst (fun x => x._id == p._id)
          (fun x => { x with status := .claimed }) s.posts) } c.claimantId = some u := hu
  simp only [approveClaimHandler, hc, hp, hu2]

theorem find_id_eq {α : Type} (key : α → ObjectId) (l : List α) (id : ObjectId) (x : α)
    (h : l.find? (fun y => key y == id) = some x) : key x = id := by
  have := List.find?_some h
  simpa using this

theorem findUser_some (s : Store) (cid : Option ObjectId) (u : User)
    (h : findUser s cid = some u) :
    cid = some u._id ∧ s.users.find? (fun x => x._id == u._id) = some u := by
  cases cid with
  | none => simp [findUser] at h
  | some i =>
    simp only [findUser, Option.bind_some] at h
    have hid : u._id = i := find_id_eq (fun x : User => x._id) s.users i u h
    subst hid
    exact ⟨rfl, h⟩

/-- C5: an approval whose claim, post and claimant exist is answered 200; it
replaces the claim by itself with status approved, the post by itself with
status claimed, and the claimant by itself with one notification appended at
the end whose message quotes the post's item name; every other claim, post and
user document and the administrators are as before. -/
theorem approveClaim_effect (L : Lib) (env : Env) (s : Store) (auth : Option String)
    (user : TokenPayload) (id : ObjectId) (c : Claim) (p : Post) (u : User)
    (hauth : authenticateToken L env.now auth = .ok user)
    (hc : findClaim s id = some c) (hp : findPost s c.postId = some p)
    (hu : findUser s c.claimantId = some u) :
    ∃ ic ip iu, s.claims[ic]? = some c ∧ s.posts[ip]? = some p ∧ s.users[iu]? = some u ∧
      approveClaim L env s auth (some id)
        = (⟨s.users.set iu { u with notifications := u.notifications ++
                [⟨"Your claim for \"" ++ p.item ++ "\" has been approved!", env.now⟩] },
            s.admins,
            s.posts.set ip { p with status := .claimed },
            s.claims.set ic { c with status := .approved }⟩,
          ⟨200, .message "Claim approved"⟩) := by
  have hpid : p._id = c.postId := find_id_eq (fun x : Post => x._id) s.posts c.postId p hp
  obtain ⟨_, hu2⟩ := findUser_some s c.claimantId u hu
  obtain ⟨ic, hic, hcs⟩ := updateFirst_eq_set (fun x : Claim => x._id == id) s.claims c hc
  obtain ⟨ip, hip, hps⟩ := updateFirst_eq_set (fun x : Post => x._id == p._id) s.posts p
    (by rw [hpid]; exact hp)
  obtain ⟨iu, hiu, hus⟩ := updateFirst_eq_set (fun x : User => x._id == u._id) s.users u hu2
  refine ⟨ic, ip, iu, hic, hip, hiu, ?_⟩
  rw [approveClaim, withAuth_ok L env s auth user _ hauth,
    approveClaimHandler_eq env s id c p u hc hp hu, hcs, hps, hus]

theorem approveClaim_effect_witness :
    ∃ ic ip iu, exampleStore.claims[ic]? = some ⟨100, 10, some 2, .pending, 40⟩ ∧
      exampleStore.posts[ip]?
        = some ⟨10, "Wallet", "Wallet", "Black leather", none, .found, "", none, 30, some 1⟩ ∧
      exampleStore.users[iu]?
        = some ⟨2, "bob@students.riphah.edu.pk", "bob", "hash:secret2", [], 20⟩ ∧
      approveClaim exampleLib exampleEnv exampleStore (some "Bearer admin-token") (some 100)
        = (⟨exampleStore.users.set iu
              ⟨2, "bob@students.riphah.edu.pk", "bob", "hash:secret2",
                [] ++ [⟨"Your claim for \"" ++ "Wallet" ++ "\" has been approved!", 1000⟩], 20⟩,
            exampleStore.admins,
            exampleStore.posts.set ip
              ⟨10, "Wallet", "Wallet", "Black leather", none, .claimed, "", none, 30, some 1⟩,
            exampleStore.claims.set ic ⟨100, 10, some 2, .approved, 40⟩⟩,
          ⟨200, .message "Claim approved"⟩) :=
  approveClaim_effect exampleLib exampleEnv exampleStore (some "Bearer admin-token")
    ⟨none, some 7, some "root@admin.riphah.edu.pk", some "root", some "admin"⟩ 100
    ⟨100, 10, some 2, .pending, 40⟩
    ⟨10, "Wallet", "Wallet", "Black leather", none, .found, "", none, 30, some 1⟩
    ⟨2, "bob@students.riphah.edu.pk", "bob", "hash:secret2", [], 20⟩
    rfl (by decide) (by decide) (by decide)

/-- C4: two approvals in sequence of a claim whose post and claimant exist are
both answered 200; after the second the post collection is what it was after
the first, with the referenced post in status claimed, while the claimant's
notification list is that after the first with one more entry at the end. -/
theorem approveClaim_twice (L : Lib) (env1 env2 : Env) (s : Store)
    (auth1 auth2 : Option String) (user1 user2 : TokenPayload) (id : ObjectId)
    (c : Claim) (p : Post) (u : User)
    (hauth1 : authenticateToken L env1.now auth1 = .ok user1)
    (hauth2 : authenticateToken L env2.now auth2 = .ok user2)
    (hc : findClaim s id = some c) (hp : findPost s c.postId = some p)
    (hu : findUser s c.claimantId = some u) :
    ∃ s1 s2 p1 u1 u2,
      approveClaim L env1 s auth1 (some id) = (s1, ⟨200, .message "Claim approved"⟩) ∧
      approveClaim L env2 s1 auth2 (some id) = (s2, ⟨200, .message "Claim approved"⟩) ∧
      findPost s1 c.postId = some p1 ∧ p1.status = .claimed ∧
      findPost s2 c.postId = some p1 ∧ s2.posts = s1.posts ∧
      findUser s1 c.claimantId = some u1 ∧ findUser s2 c.claimantId = some u2 ∧
      u2.notifications = u1.notifications ++
        [⟨"Your claim for \"" ++ p.item ++ "\" has been approved!", env2.now⟩] ∧
      u2.notifications.length = u1.notifications.length + 1 := by
  have hpid : p._id = c.postId := find_id_eq (fun x : Post => x._id) s.posts c.postId p hp
  obtain ⟨hcid, hu2⟩ := findUser_some s c.claimantId u hu
  have e1 := approveClaimHandler_eq env1 s id c p u hc hp hu
  -- the documents the second approval finds
  have hc1 : findClaim (approveClaimHandler env1 s (some id)).1 id
      = some { c with status := .approved } := by
    rw [e1]
    have hf := find_updateFirst (fun x : Claim => x._id == id)
      (fun x => { x with status := .approved }) s.claims (fun _ => rfl)
    simp only [findClaim] at hc ⊢
    rw [hf, hc]
    rfl
  have hp1 : findPost (approveClaimHandler env1 s (some id)).1 c.postId
      = some { p with status := .claimed } := by
    rw [e1]
    have hf := find_updateFirst (fun x : Post => x._id == p._id)
      (fun x => { x with status := .claimed }) s.posts (fun _ => rfl)
    have hp0 : s.posts.find? (fun x => x._id == p._id) = some p := by
      rw [hpid]
      exact hp
    simp only [findPost]
    rw [← hpid, hf, hp0]
    rfl
  have hu1 : findUser (approveClaimHandler env1 s (some id)).1 c.claimantId
      = some { u with notifications := u.notifications ++
          [⟨"Your claim for \"" ++ p.item ++ "\" has been approved!", env1.now⟩] } := by
    rw [e1, hcid]
    have hf := find_updateFirst (fun x : User => x._id == u._id)
      (fun x => { x with notifications := u.notifications ++
        [⟨"Your claim for \"" ++ p.item ++ "\" has been approved!", env1.now⟩] })
      s.users (fun _ => rfl)
    rw [hu2] at hf
    exact hf
  have e2 := approveClaimHandler_eq env2 (approveClaimHandler env1 s (some id)).1 id
    { c with status := .approved } { p with status := .claimed }
    { u with notifications := u.notifications ++
        [⟨"Your claim for \"" ++ p.item ++ "\" has been approved!", env1.now⟩] } hc1 hp1 hu1
  have hposts : (approveClaimHandler env2 (approveClaimHandler env1 s (some id)).1 (some id)).1.posts
      = (approveClaimHandler env1 s (some id)).1.posts := by
    rw [e2, e1]
    exact updateFirst_idem (fun x : Post => x._id == p._id)
      (fun x => { x with status := .claimed }) s.posts (fun _ => rfl) (fun _ => rfl)
  have hp2 : findPost (approveClaimHandler env2 (approveClaimHandler env1 s (some id)).1
      (some id)).1 c.postId = some { p with status := .claimed } := by
    simp only [findPost] at hp1 ⊢
    rw [hposts]
    exact hp1
  have hu3 : findUser (approveClaimHandler env2 (approveClaimHandler env1 s (some id)).1
      (some id)).1 c.claimantId
      = some { u with notifications := (u.notifications ++
          [⟨"Your claim for \"" ++ p.item ++ "\" has been approved!", env1.now⟩]) ++
          [⟨"Your claim for \"" ++ p.item ++ "\" has been approved!", env2.now⟩] } := by
    have hfind := hu1
    rw [hcid] at hfind ⊢
    rw [e2]
    have hf := find_updateFirst (fun x : User => x._id == u._id)
      (fun x => { x with notifications := (u.notifications ++
        [⟨"Your claim for \"" ++ p.item ++ "\" has been approved!", env1.now⟩]) ++
        [⟨"Your claim for \"" ++ p.item ++ "\" has been approved!", env2.now⟩] })
      (approveClaimHandler env1 s (some id)).1.users (fun _ => rfl)
    have hfind2 : (approveClaimHandler env1 s (some id)).1.users.find?
        (fun x => x._id == u._id) = some { u with notifications := u.notifications ++
          [⟨"Your claim for \"" ++ p.item ++ "\" has been approved!", env1.now⟩] } := hfind
    rw [hfind2] at hf
    exact hf
  refine ⟨(approveClaimHandler env1 s (some id)).1,
    (approveClaimHandler env2 (approveClaimHandler env1 s (some id)).1 (some id)).1,
    _, _, _, ?_, ?_, hp1, rfl, hp2, hposts, hu1, hu3, rfl, by simp⟩
  · rw [approveClaim, withAuth_ok L env1 s auth1 user1 _ hauth1, e1]
  · rw [approveClaim, withAuth_ok L env2 _ auth2 user2 _ hauth2, e2]

theorem approveClaim_twice_witness :
    ∃ s1 s2 p1 u1 u2,
      approveClaim exampleLib exampleEnv exampleStore (some "Bearer admin-token") (some 100)
        = (s1, ⟨200, .message "Claim approved"⟩) ∧
      approveClaim exampleLib exampleEnvLater s1 (some "Bearer admin-token") (some 100)
        = (s2, ⟨200, .message "Claim approved"⟩) ∧
      findPost s1 10 = some p1 ∧ p1.status = .claimed ∧
      findPost s2 10 = some p1 ∧ s2.posts = s1.posts ∧
      findUser s1 (some 2) = some u1 ∧ findUser s2 (some 2) = some u2 ∧
      u2.notifications = u1.notifications ++
        [⟨"Your claim for \"" ++ "Wallet" ++ "\" has been approved!", 2000⟩] ∧
      u2.notifications.length = u1.notifications.length + 1 :=
  approveClaim_twice exampleLib exampleEnv exampleEnvLater exampleStore
    (some "Bearer admin-token") (some "Bearer admin-token")
    ⟨none, some 7, some "root@admin.riphah.edu.pk", some "root", some "admin"⟩
    ⟨none, some 7, some "root@admin.riphah.edu.pk", some "root", some "admin"⟩ 100
    ⟨100, 10, some 2, .pending, 40⟩
    ⟨10, "Wallet", "Wallet", "Black leather", none, .found, "", none, 30, some 1⟩
    ⟨2, "bob@students.riphah.edu.pk", "bob", "hash:secret2", [], 20⟩
    rfl rfl (by decide) (by decide) (by decide)

/-! ## The claim collection under every request -/

theorem withAuth_claims (L : Lib) (env : Env) (s : Store) (authorization : Option String)
    (handler : TokenPayload → Store × Response) (P : List Claim → Prop)
    (hs : P s.claims) (hh : ∀ user, P (handler user).1.claims) :
    P (withAuth L env s authorization handler).1.claims := by
  unfold withAuth
  split
  · exact hs
  · exact hh _

theorem signup_claims (L : Lib) (env : Env) (s s1 : Store) (email password : Option String)
    (resp : Response) (h : signup L env s email password = some (s1, resp)) :
    s1.claims = s.claims := by
  unfold signup at h
  cases email with
  | none =>
    cases h
    rfl
  | some email =>
    cases password with
    | none =>
      cases h
      rfl
    | some password =>
      simp only at h
      split at h
      · split at h <;> (cases h; rfl)
      · split at h
        · cases h
          rfl
        · split at h
          · cases h
            rfl
          · split at h
            · cases h
            · cases h
              rfl

theorem login_claims (L : Lib) (env : Env) (s : Store) (email password : Option String) :
    (login L env s email password).1.claims = s.claims := by
  unfold login
  simp only
  repeat' split
  all_goals rfl

theorem createPostHandler_claims (env : Env) (s : Store) (user : TokenPayload)
    (body : PostBody) (file : Option Upload) :
    (createPostHandler env s user body file).1.claims = s.claims := by
  unfold createPostHandler
  split
  · rfl
  · split
    · rfl
    · simp only
      split <;> rfl

theorem createPost_claims (L : Lib) (env : Env) (s : Store) (authorization : Option String)
    (body : PostBody) (file : Option Upload) :
    (createPost L env s authorization body file).1.claims = s.claims := by
  unfold createPost
  split
  · rfl
  · split
    · split
      · exact createPostHandler_claims _ _ _ _ _
      · rfl
    · exact createPostHandler_claims _ _ _ _ _

theorem createClaimHandler_claims (env : Env) (s : Store) (user : TokenPayload)
    (id : Option ObjectId) :
    (createClaimHandler env s user id).1.claims = s.claims ∨
      ∃ c, (createClaimHandler env s user id).1.claims = s.claims ++ [c] := by
  unfold createClaimHandler
  split
  · exact Or.inl rfl
  · simp only
    split
    · exact Or.inl rfl
    · exact Or.inr ⟨_, rfl⟩

theorem approveClaimHandler_claims (env : Env) (s : Store) (id : Option ObjectId) :
    (approveClaimHandler env s id).1.claims = s.claims ∨
      ∃ claimId, id = some claimId ∧
        (approveClaimHandler env s id).1.claims
          = updateFirst (fun c => c._id == claimId)
              (fun c => { c with status := .approved }) s.claims := by
  unfold approveClaimHandler
  split
  · exact Or.inl rfl
  · split
    · exact Or.inl rfl
    · simp only
      split
      · exact Or.inr ⟨_, rfl, rfl⟩
      · split <;> exact Or.inr ⟨_, rfl, rfl⟩

theorem denyClaimHandler_claims (env : Env) (s : Store) (id : Option ObjectId) :
    (denyClaimHandler env s id).1.claims = s.claims ∨
      ∃ claimId, id = some claimId ∧
        (denyClaimHandler env s id).1.claims
          = updateFirst (fun c => c._id == claimId)
              (fun c => { c with status := .denied }) s.claims := by
  unfold denyClaimHandler
  split
  · exact Or.inl rfl
  · split
    · exact Or.inl rfl
    · simp only
      split <;> exact Or.inr ⟨_, rfl, rfl⟩

theorem claimStep_of_eq (r : Request) (l l1 : List Claim) (hl : l1 = l) (i : Nat) (c : Claim)
    (hc : l[i]? = some c) : ∃ c1, l1[i]? = some c1 ∧ ClaimStep r c c1 := by
  subst hl
  exact ⟨c, hc, rfl, rfl, rfl, rfl, Or.inl rfl⟩

theorem claimStep_of_append (r : Request) (l l1 : List Claim)
    (hl : l1 = l ∨ ∃ x, l1 = l ++ [x]) (i : Nat) (c : Claim)
    (hc : l[i]? = some c) : ∃ c1, l1[i]? = some c1 ∧ ClaimStep r c c1 := by
  rcases hl with hl | ⟨x, hl⟩
  · exact claimStep_of_eq r l l1 hl i c hc
  · subst hl
    refine ⟨c, ?_, rfl, rfl, rfl, rfl, Or.inl rfl⟩
    have hi : i < l.length := (List.getElem?_eq_some.1 hc).1
    rw [List.getElem?_append_left hi]
    exact hc

theorem step_claims (L : Lib) (env : Env) (s s1 : Store) (r : Request) (resp : Response)
    (h : step L env s r = some (s1, resp)) (i : Nat) (c : Claim)
    (hc : s.claims[i]? = some c) : ∃ c1, s1.claims[i]? = some c1 ∧ ClaimStep r c c1 := by
  cases r with
  | root =>
    cases h
    exact claimStep_of_eq _ _ _ rfl i c hc
  | signup email password =>
    exact claimStep_of_eq _ _ _ (signup_claims L env s s1 email password resp h) i c hc
  | login email password =>
    have h1 : s1 = (login L env s email password).1 := by
      simp only [step, Option.some.injEq] at h
      rw [h]
    exact claimStep_of_eq _ _ _ (h1 ▸ login_claims L env s email password) i c hc
  | listPosts =>
    cases h
    exact claimStep_of_eq _ _ _ rfl i c hc
  | createPost a body file =>
    have h1 : s1 = (createPost L env s a body file).1 := by
      simp only [step, Option.some.injEq] at h
      rw [h]
    exact claimStep_of_eq _ _ _ (h1 ▸ createPost_claims L env s a body file) i c hc
  | getPost id =>
    have h1 : s1 = (getPost s id).1 := by
      simp only [step, Option.some.injEq] at h
      rw [h]
    have h2 : (getPost s id).1 = s := by
      unfold getPost
      repeat' split
      all_goals rfl
    exact claimStep_of_eq _ _ _ (by rw [h1, h2]) i c hc
  | listClaims a =>
    have h1 : s1 = (withAuth L env s a (listClaimsHandler s)).1 := by
      simp only [step, Option.some.injEq] at h
      rw [h]
    refine claimStep_of_eq _ _ _ ?_ i c hc
    rw [h1]
    refine withAuth_claims L env s a _ (fun l => l = s.claims) rfl ?_
    intro user
    unfold listClaimsHandler
    split <;> rfl
  | createClaim a id =>
    have h1 : s1 = (createClaim L env s a id).1 := by
      simp only [step, Option.some.injEq] at h
      rw [h]
    refine claimStep_of_append _ _ _ ?_ i c hc
    rw [h1]
    exact withAuth_claims L env s a _ (fun l => l = s.claims ∨ ∃ x, l = s.claims ++ [x])
      (Or.inl rfl) (fun user => createClaimHandler_claims env s user id)
  | approveClaim a id =>
    have h1 : s1 = (approveClaim L env s a id).1 := by
      simp only [step, Option.some.injEq] at h
      rw [h]
    rw [h1]
    refine withAuth_claims L env s a _
      (fun l => ∃ c1, l[i]? = some c1 ∧ ClaimStep (.approveClaim a id) c c1)
      (claimStep_of_eq _ _ _ rfl i c hc) ?_
    intro _
    rcases approveClaimHandler_claims env s id with heq | ⟨claimId, hid, heq⟩
    · exact claimStep_of_eq _ _ _ heq i c hc
    · rw [heq]
      rcases updateFirst_getElem? (fun x : Claim => x._id == claimId)
        (fun x => { x with status := .approved }) s.claims i c hc with hk | ⟨hp, hk⟩
      · exact ⟨c, hk, rfl, rfl, rfl, rfl, Or.inl rfl⟩
      · have hcid : c._id = claimId := by simpa using hp
        refine ⟨_, hk, rfl, rfl, rfl, rfl, Or.inr (Or.inl ⟨⟨a, ?_⟩, rfl⟩)⟩
        rw [hid, hcid]
  | denyClaim a id =>
    have h1 : s1 = (denyClaim L env s a id).1 := by
      simp only [step, Option.some.injEq] at h
      rw [h]
    rw [h1]
    refine withAuth_claims L env s a _
      (fun l => ∃ c1, l[i]? = some c1 ∧ ClaimStep (.denyClaim a id) c c1)
      (claimStep_of_eq _ _ _ rfl i c hc) ?_
    intro _
    rcases denyClaimHandler_claims env s id with heq | ⟨claimId, hid, heq⟩
    · exact claimStep_of_eq _ _ _ heq i c hc
    · rw [heq]
      rcases updateFirst_getElem? (fun x : Claim => x._id == claimId)
        (fun x => { x with status := .denied }) s.claims i c hc with hk | ⟨hp, hk⟩
      · exact ⟨c, hk, rfl, rfl, rfl, rfl, Or.inl rfl⟩
      · have hcid : c._id = claimId := by simpa using hp
        refine ⟨_, hk, rfl, rfl, rfl, rfl, Or.inr (Or.inr ⟨⟨a, ?_⟩, rfl⟩)⟩
        rw [hid, hcid]
  | claimStats a =>
    have h1 : s1 = (withAuth L env s a (claimStatsHandler s)).1 := by
      simp only [step, Option.some.injEq] at h
      rw [h]
    refine claimStep_of_eq _ _ _ ?_ i c hc
    rw [h1]
    refine withAuth_claims L env s a _ (fun l => l = s.claims) rfl ?_
    intro user
    unfold claimStatsHandler
    split <;> rfl
  | clearNotifications a =>
    have h1 : s1 = (withAuth L env s a (clearNotificationsHandler s)).1 := by
      simp only [step, Option.some.injEq] at h
      rw [h]
    refine claimStep_of_eq _ _ _ ?_ i c hc
    rw [h1]
    refine withAuth_claims L env s a _ (fun l => l = s.claims) rfl ?_
    intro user
    unfold clearNotificationsHandler
    split <;> rfl
  | profile a =>
    have h1 : s1 = (withAuth L env s a (profileHandler s)).1 := by
      simp only [step, Option.some.injEq] at h
      rw [h]
    refine claimStep_of_eq _ _ _ ?_ i c hc
    rw [h1]
    refine withAuth_claims L env s a _ (fun l => l = s.claims) rfl ?_
    intro user
    unfold profileHandler
    split <;> rfl
  | profilePosts a =>
    have h1 : s1 = (withAuth L env s a (profilePostsHandler s)).1 := by
      simp only [step, Option.some.injEq] at h
      rw [h]
    refine claimStep_of_eq _ _ _ ?_ i c hc
    rw [h1]
    exact withAuth_claims L env s a _ (fun l => l = s.claims) rfl (fun _ => rfl)

theorem approveClaimHandler_claims_found (env : Env) (s : Store) (id : ObjectId) (c : Claim)
    (hc : findClaim s id = some c) :
    (approveClaimHandler env s (some id)).1.claims
      = updateFirst (fun x => x._id == id) (fun x => { x with status := .approved })
          s.claims := by
  simp only [approveClaimHandler, hc]
  split
  · rfl
  · split <;> rfl

theorem denyClaimHandler_claims_found (env : Env) (s : Store) (id : ObjectId) (c : Claim)
    (hc : findClaim s id = some c) :
    (denyClaimHandler env s (some id)).1.claims
      = updateFirst (fun x => x._id == id) (fun x => { x with status := .denied })
          s.claims := by
  simp only [denyClaimHandler, hc]
  split <;> rfl

theorem getElem?_set_same {α : Type} (l : List α) (i : Nat) (x y : α) (h : l[i]? = some x) :
    (l.set i y)[i]? = some y := by
  have hi : i < l.length := (List.getElem?_eq_some.1 h).1
  simp [List.getElem?_set, hi]

/-- C3 (as the code has it): a request leaves every stored claim in its place
with the same post, claimant and creation time, and changes its status only if
the request is an approve of the claim's id (the status becomes approved) or a
deny of it (the status becomes denied); and an approve or a deny that passes
the token check and whose id resolves sets the status of the claim it finds to
approved, respectively denied, whatever the status was: approved and denied are
not terminal. -/
theorem claim_status_transitions (L : Lib) (env : Env) (s : Store) :
    (∀ (r : Request) (s1 : Store) (resp : Response), step L env s r = some (s1, resp) →
      ∀ (i : Nat) (c : Claim), s.claims[i]? = some c →
        ∃ c1 : Claim, s1.claims[i]? = some c1 ∧
          c1._id = c._id ∧ c1.postId = c.postId ∧ c1.claimantId = c.claimantId ∧
          c1.claimedAt = c.claimedAt ∧
          (c1.status = c.status ∨
           ((∃ a, r = .approveClaim a (some c._id)) ∧ c1.status = .approved) ∨
           ((∃ a, r = .denyClaim a (some c._id)) ∧ c1.status = .denied))) ∧
    (∀ (a : Option String) (user : TokenPayload) (id : ObjectId) (c : Claim),
      authenticateToken L env.now a = .ok user → findClaim s id = some c →
      ∃ i : Nat, s.claims[i]? = some c ∧
        (approveClaim L env s a (some id)).1.claims[i]?
          = some { c with status := .approved } ∧
        (denyClaim L env s a (some id)).1.claims[i]?
          = some { c with status := .denied }) := by
  constructor
  · intro r s1 resp h i c hc
    exact step_claims L env s s1 r resp h i c hc
  · intro a user id c hauth hc
    obtain ⟨i, hi, hset⟩ := updateFirst_eq_set (fun x : Claim => x._id == id) s.claims c hc
    refine ⟨i, hi, ?_, ?_⟩
    · rw [approveClaim, withAuth_ok L env s a user _ hauth,
        approveClaimHandler_claims_found env s id c hc, hset]
      exact getElem?_set_same _ _ _ _ hi
    · rw [denyClaim, withAuth_ok L env s a user _ hauth,
        denyClaimHandler_claims_found env s id c hc, hset]
      exact getElem?_set_same _ _ _ _ hi

theorem claim_status_transitions_witness :
    (∃ c1, (exampleStore.claims.set 1 ⟨101, 10, some 1, .approved, 50⟩)[0]? = some c1 ∧
      c1.status = .pending) ∧
    ∃ i : Nat, exampleStore.claims[i]? = some ⟨101, 10, some 1, .denied, 50⟩ ∧
      (approveClaim exampleLib exampleEnv exampleStore (some "Bearer admin-token")
          (some 101)).1.claims[i]? = some ⟨101, 10, some 1, .approved, 50⟩ ∧
      (denyClaim exampleLib exampleEnv exampleStore (some "Bearer admin-token")
          (some 101)).1.claims[i]? = some ⟨101, 10, some 1, .denied, 50⟩ := by
  obtain ⟨hstep, hset⟩ := claim_status_transitions exampleLib exampleEnv exampleStore
  constructor
  · obtain ⟨c1, h1, _, _, _, _, hstatus⟩ :=
      hstep (.approveClaim (some "Bearer admin-token") (some 101))
        ⟨[⟨1, "alice@students.riphah.edu.pk", "alice", "hash:secret1",
            [⟨"Your claim for \"Wallet\" has been approved!", 1000⟩], 10⟩,
          ⟨2, "bob@students.riphah.edu.pk", "bob", "hash:secret2", [], 20⟩],
          exampleStore.admins,
          [⟨10, "Wallet", "Wallet", "Black leather", none, .claimed, "", none, 30, some 1⟩],
          exampleStore.claims.set 1 ⟨101, 10, some 1, .approved, 50⟩⟩
        ⟨200, .message "Claim approved"⟩ (by decide) 0 ⟨100, 10, some 2, .pending, 40⟩
        (by decide)
    refine ⟨c1, h1, ?_⟩
    rcases hstatus with h | ⟨⟨_, h⟩, _⟩ | ⟨⟨_, h⟩, _⟩
    · exact h
    · simp at h
    · simp at h
  · exact hset (some "Bearer admin-token")
      ⟨none, some 7, some "root@admin.riphah.edu.pk", some "root", some "admin"⟩ 101
      ⟨101, 10, some 1, .denied, 50⟩ rfl (by decide)

/-- C3 fails as stated: an approve of a denied claim is answered 200 and turns
its status to approved, and a deny of that approved claim turns it to denied. -/
theorem approve_changes_denied_claim :
    findClaim exampleStore 101 = some ⟨101, 10, some 1, .denied, 50⟩ ∧
    step exampleLib exampleEnv exampleStore
        (.approveClaim (some "Bearer admin-token") (some 101))
      = some (⟨[⟨1, "alice@students.riphah.edu.pk", "alice", "hash:secret1",
              [⟨"Your claim for \"Wallet\" has been approved!", 1000⟩], 10⟩,
            ⟨2, "bob@students.riphah.edu.pk", "bob", "hash:secret2", [], 20⟩],
          exampleStore.admins,
          [⟨10, "Wallet", "Wallet", "Black leather", none, .claimed, "", none, 30, some 1⟩],
          [⟨100, 10, some 2, .pending, 40⟩, ⟨101, 10, some 1, .approved, 50⟩]⟩,
        ⟨200, .message "Claim approved"⟩) ∧
    (step exampleLib exampleEnvLater
        ⟨[⟨1, "alice@students.riphah.edu.pk", "alice", "hash:secret1",
              [⟨"Your claim for \"Wallet\" has been approved!", 1000⟩], 10⟩,
            ⟨2, "bob@students.riphah.edu.pk", "bob", "hash:secret2", [], 20⟩],
          exampleStore.admins,
          [⟨10, "Wallet", "Wallet", "Black leather", none, .claimed, "", none, 30, some 1⟩],
          [⟨100, 10, some 2, .pending, 40⟩, ⟨101, 10, some 1, .approved, 50⟩]⟩
        (.denyClaim (some "Bearer admin-token") (some 101))).map
          (fun out => (out.1.claims, out.2))
      = some ([⟨100, 10, some 2, .pending, 40⟩, ⟨101, 10, some 1, .denied, 50⟩],
          ⟨200, .message "Claim denied"⟩) := by
  refine ⟨?_, ?_, ?_⟩ <;> decide

end FoundIt
